import Mathlib

/-!
# MapView (giv/mapview.go): a verification development

A shallow embedding of the `MapView` editor of `giv/mapview.go` and the properties
proved about it.  A Go map is an association list whose order stands for the order in
which `reflect.Value.MapKeys` happens to enumerate it; the functions of other packages
that `mapview.go` calls (`kit.ToString`, `ToValueView`, `kit.MapAdd`, ...) are the fields
of an environment `Env`, so that every general theorem holds for all of them.  A result
of type `Option` is `none` exactly when the Go code panics.
-/

namespace Giv

/-! ## Go values, types and maps -/

/-- The kinds of `reflect.Kind` that occur in the model. -/
inductive Kind where
  | Bool
  | Int
  | String
  | Interface
  deriving DecidableEq, Repr

/-- Go types of keys and values (`reflect.Type`). -/
inductive GoType where
  | bool
  | int
  | string
  | emptyInterface
  | namedInterface (name : String)
  deriving DecidableEq, Repr

/-- The kind of a type, `reflect.Type.Kind()`. -/
def GoType.Kind : GoType → Kind
  | .bool => .Bool
  | .int => .Int
  | .string => .String
  | .emptyInterface => .Interface
  | .namedInterface _ => .Interface

/-- The name of a type, `reflect.Type.String()`. -/
def GoType.String : GoType → String
  | .bool => "bool"
  | .int => "int"
  | .string => "string"
  | .emptyInterface => "interface \x7b\x7d"
  | .namedInterface name => name

/-- A dynamically typed Go value, as held in an `interface{}` or a `reflect.Value`. -/
inductive GoVal where
  | nil
  | bool (b : Bool)
  | int (n : Int)
  | str (s : String)
  deriving DecidableEq, Repr

/-- An argument of type `interface{}` as `kit.ToString` receives it: either a plain
value (`x.Interface()`) or a `reflect.Value` passed as such. -/
inductive Iface where
  | val (v : GoVal)
  | reflectValue (v : GoVal)
  deriving DecidableEq, Repr

/-- A Go map: key type, value type and the entries.  The order of `entries` is the
order in which `MapKeys` enumerates the map; Go does not fix it, so statements about
enumeration order quantify over the permutations of `entries`. -/
structure GoMap where
  keyType : GoType
  elemType : GoType
  entries : List (GoVal × GoVal)
  deriving DecidableEq, Repr

/-- The keys of a map are pairwise distinct. -/
def GoMap.WF (m : GoMap) : Prop := (m.entries.map Prod.fst).Nodup

/-- The keys in enumeration order, `reflect.Value.MapKeys`. -/
def GoMap.MapKeys (m : GoMap) : List GoVal := m.entries.map Prod.fst

/-- Lookup in the entry list. -/
def lookupKey (k : GoVal) : List (GoVal × GoVal) → Option GoVal
  | [] => none
  | (k', v) :: rest => if k' = k then some v else lookupKey k rest

/-- The value stored under a key, `reflect.Value.MapIndex`; `none` is the invalid
`reflect.Value` returned for an absent key. -/
def GoMap.MapIndex (m : GoMap) (k : GoVal) : Option GoVal := lookupKey k m.entries

/-- The expression `mpvnp.MapIndex(key).Interface()` for a key taken from `MapKeys`
(for which the lookup succeeds). -/
def GoMap.MapIndexIface (m : GoMap) (k : GoVal) : GoVal := (m.MapIndex k).getD GoVal.nil

/-- Replace the value of a key in the entry list, or append the entry when the key is new. -/
def setEntry (k v : GoVal) : List (GoVal × GoVal) → List (GoVal × GoVal)
  | [] => [(k, v)]
  | (k', v') :: rest => if k' = k then (k', v) :: rest else (k', v') :: setEntry k v rest

/-- The assignment `m[k] = v`, `reflect.Value.SetMapIndex(k, v)`. -/
def GoMap.SetMapIndex (m : GoMap) (k v : GoVal) : GoMap :=
  { m with entries := setEntry k v m.entries }

/-- Deleting a key, `kit.MapDeleteValue`, which is `SetMapIndex(key, reflect.Value{})`. -/
def GoMap.MapDeleteValue (m : GoMap) (k : GoVal) : GoMap :=
  { m with entries := m.entries.filter (fun e => decide (e.1 ≠ k)) }

/-! ## Widgets and value views -/

/-- Widget types that are put into a `kit.TypeAndNameList`. -/
inductive WidgetType where
  | ToolBar
  | Frame
  | ComboBox
  | Action
  | TextField
  | SpinBox
  | CheckBox
  deriving DecidableEq, Repr

/-- A `ValueView`: the value it shows (`Val()`) and the widget type it asks for
(`WidgetType()`). -/
structure ValueView where
  Value : GoVal
  widget : WidgetType
  deriving DecidableEq, Repr

/-- The binding `kv.SetMapKey(key, mv.Map, mv.TmpSave)`: the view shows the key. -/
def ValueView.SetMapKey (kv : ValueView) (key : GoVal) : ValueView :=
  { kv with Value := key }

/-- The binding `vv.SetMapValue(val, mv.Map, key, kv, mv.TmpSave)`: the view shows the value. -/
def ValueView.SetMapValue (vv : ValueView) (val : GoVal) : ValueView :=
  { vv with Value := val }

/-- The declarative child list, `kit.TypeAndNameList`. -/
abbrev TypeAndNameList := List (WidgetType × String)

/-- The `map-grid` frame: its `columns` property and its children by type and name.
After `ConfigChildren(config, false)` the children are taken to be those of `config`. -/
structure Frame where
  columns : Nat
  Kids : TypeAndNameList
  deriving DecidableEq, Repr

/-- The functions of other packages called by `mapview.go`. -/
structure Env where
  /-- The conversion `kit.ToString`. -/
  ToString : Iface → String
  /-- The factory `ToValueView(it, "")`; `none` is a nil view. -/
  ToValueView : GoVal → Option ValueView
  /-- The test `kit.ValueIsZero`. -/
  ValueIsZero : GoVal → Bool
  /-- The element of `kit.MakeOfType(typ)`. -/
  MakeOfType : GoType → GoVal
  /-- The element of `kit.CloneToType(typ, val)`. -/
  CloneToType : GoType → GoVal → GoVal
  /-- The insertion `kit.MapAdd`. -/
  MapAdd : GoMap → GoMap
  /-- The test `HasToolBarView`. -/
  HasToolBarView : GoMap → Bool
  /-- The contributor `ToolBarView(mp, viewport, tb)`, as a function of the toolbar's children. -/
  ToolBarView : GoMap → List String → List String

/-- The state of a `MapView`: the fields of the struct, the part of the embedded
`gi.Frame` that the code reads (the inactive flag and the two children `toolbar`
and `map-grid`), and counters of the effects on other objects. -/
structure MapView where
  Map : Option GoMap
  Changed : Bool
  Keys : List ValueView
  Values : List ValueView
  SortVals : Bool
  TmpSave : Option ValueView
  ToolbarMap : Option GoMap
  /-- The result of `IsInactive()`. -/
  inactive : Bool
  /-- The child named `toolbar` (the labels of its actions), when present. -/
  toolbar : Option (List String)
  /-- The child named `map-grid`, when present. -/
  mapGrid : Option Frame
  /-- The number of `ViewSig.Emit` calls so far. -/
  viewSigEmits : Nat
  /-- The number of `TmpSave.SaveTmp()` calls so far. -/
  tmpSaves : Nat
  /-- The number of `ToolBarView` calls so far. -/
  toolBarViewCalls : Nat
  /-- The number of `DeleteChildAtIndex` calls on the toolbar so far. -/
  toolbarDeletes : Nat
  deriving DecidableEq, Repr

/-! ## Sorting -/

/-- Comparison of Go strings with `<`: lexicographic (by bytes in Go, which for UTF-8 is
the order by code points). -/
def strLess (a b : String) : Bool := decide (a.toList < b.toList)

/-- The inner loop of Go's `insertionSort`, `for j := i; j > a && less(j, j-1); j--`
with a swap each time, on the already sorted prefix held in reverse
(its head is `data[i-1]`). -/
def insertBack {α : Type} (less : α → α → Bool) (x : α) : List α → List α
  | [] => [x]
  | y :: ys => if less x y then y :: insertBack less x ys else x :: y :: ys

/-- The call `sort.Slice(keys, less)`: Go's `insertionSort`, which is what the library
runs on a short slice.  (On longer slices the library adds a Shell pass and a quicksort;
for a comparison by text the result then differs at most in the order of elements whose
texts are equal.) -/
def sortSlice {α : Type} (less : α → α → Bool) (l : List α) : List α :=
  (l.foldl (fun acc x => insertBack less x acc) []).reverse

/-- The text compared by the sort of `ConfigMapGrid`: with `SortVals` it is
`kit.ToString(mpvnp.MapIndex(key).Interface())`, otherwise `kit.ToString(key)` where
`key` is the `reflect.Value` itself. -/
def sortText (env : Env) (mp : GoMap) (sortVals : Bool) (key : GoVal) : String :=
  if sortVals then env.ToString (Iface.val (mp.MapIndexIface key))
  else env.ToString (Iface.reflectValue key)

/-- The `less` closure handed to `sort.Slice`. -/
def sortLess (env : Env) (mp : GoMap) (sortVals : Bool) (ki kj : GoVal) : Bool :=
  strLess (sortText env mp sortVals ki) (sortText env mp sortVals kj)

/-! ## ConfigMapGrid -/

/-- The three lists built by the loop over the keys. -/
structure GridAcc where
  config : TypeAndNameList
  Keys : List ValueView
  Values : List ValueView
  deriving DecidableEq, Repr

/-- One iteration of `for _, key := range keys`. -/
def gridStep (env : Env) (mp : GoMap) (ifaceType : Bool) (acc : GridAcc) (key : GoVal) :
    GridAcc :=
  match env.ToValueView key with
  | none => acc
  | some kv0 =>
    let kv := kv0.SetMapKey key
    let val := mp.MapIndexIface key
    match env.ToValueView val with
    | none => acc
    | some vv0 =>
      let vv := vv0.SetMapValue val
      let keytxt := env.ToString (Iface.val key)
      let keynm := "key-" ++ keytxt
      let valnm := "value-" ++ keytxt
      let delnm := "del-" ++ keytxt
      let config := acc.config ++ [(kv.widget, keynm)]
      let config := config ++ [(vv.widget, valnm)]
      let config := if ifaceType then config ++ [(WidgetType.ComboBox, "type-" ++ keytxt)]
        else config
      let config := config ++ [(WidgetType.Action, delnm)]
      { config := config, Keys := acc.Keys ++ [kv], Values := acc.Values ++ [vv] }

/-- One iteration of the wiring loop `for i, vv := range mv.Values`: the children
looked up with `KnownChild` and the type assertions on them; `none` when an index is
outside the child list or an assertion fails. -/
def wireEntry (kids : TypeAndNameList) (keys : List ValueView) (ncol : Nat)
    (ifaceType : Bool) (i : Nat) : Option Unit :=
  match kids[i * ncol]?, kids[i * ncol + 1]?, keys[i]? with
  | some _, some _, some _ =>
    if ifaceType && !(match kids[i * ncol + 2]? with
        | some typw => decide (typw.1 = WidgetType.ComboBox)
        | none => false) then none
    else
      match kids[i * ncol + ncol - 1]? with
      | some delact => if delact.1 = WidgetType.Action then some () else none
      | none => none
  | _, _, _ => none

/-- The wiring loop over the indices `0 .. n-1`. -/
def wireAll (kids : TypeAndNameList) (keys : List ValueView) (ncol : Nat)
    (ifaceType : Bool) : Nat → Option Unit
  | 0 => some ()
  | n + 1 =>
    match wireAll kids keys ncol ifaceType n with
    | none => none
    | some _ => wireEntry kids keys ncol ifaceType n

/-- The test `valtyp.Kind() == reflect.Interface && valtyp.String() == "interface {}"`. -/
def isIfaceType (valtyp : GoType) : Bool :=
  decide (valtyp.Kind = Kind.Interface) && decide (valtyp.String = "interface \x7b\x7d")

/-- The lists built by `ConfigMapGrid` from a map: the keys as enumerated are sorted
with `sort.Slice`, then the loop runs over them from empty lists. -/
def buildGrid (env : Env) (mp : GoMap) (sortVals : Bool) : GridAcc :=
  let keys := sortSlice (sortLess env mp sortVals) mp.MapKeys
  keys.foldl (gridStep env mp (isIfaceType mp.elemType)) { config := [], Keys := [], Values := [] }

/-- The number of grid columns chosen by `ConfigMapGrid`. -/
def ncolOf (mp : GoMap) : Nat := if isIfaceType mp.elemType then 4 else 3

/-- The method `ConfigMapGrid`: returns at once when the map is nil or there is no
`map-grid` child; otherwise sorts the keys, rebuilds `Keys`, `Values` and the child
list from scratch, configures the grid's children from the list and wires them. -/
def ConfigMapGrid (env : Env) (mv : MapView) : Option MapView :=
  match mv.Map with
  | none => some mv
  | some mp =>
    match mv.mapGrid with
    | none => some mv
    | some _ =>
      let ifaceType := isIfaceType mp.elemType
      let ncol := ncolOf mp
      let acc := buildGrid env mp mv.SortVals
      match wireAll acc.config acc.Keys ncol ifaceType acc.Values.length with
      | none => none
      | some _ =>
        some { mv with Keys := acc.Keys, Values := acc.Values,
                       mapGrid := some { columns := ncol, Kids := acc.config } }

/-- The slots that one iteration of the loop appends for a key view and a value view. -/
def rowSlots (env : Env) (ifaceType : Bool) (kv vv : ValueView) : TypeAndNameList :=
  let keytxt := env.ToString (Iface.val kv.Value)
  [(kv.widget, "key-" ++ keytxt), (vv.widget, "value-" ++ keytxt)]
    ++ (if ifaceType then [(WidgetType.ComboBox, "type-" ++ keytxt)] else [])
    ++ [(WidgetType.Action, "del-" ++ keytxt)]

/-- The slots of a list of rows, row after row. -/
def flatRows (env : Env) (ifaceType : Bool) : List (ValueView × ValueView) → TypeAndNameList
  | [] => []
  | r :: rs => rowSlots env ifaceType r.1 r.2 ++ flatRows env ifaceType rs

/-- The invariant of the loop of `ConfigMapGrid`: the two view lists have one length, the
child list holds the slots of their rows, and every row shows a key of the list being
traversed together with the value stored under it. -/
def GridInv (env : Env) (mp : GoMap) (ifaceType : Bool) (keys : List GoVal)
    (acc : GridAcc) : Prop :=
  acc.Keys.length = acc.Values.length ∧
  acc.config = flatRows env ifaceType (acc.Keys.zip acc.Values) ∧
  ∀ p ∈ acc.Keys.zip acc.Values, p.1.Value ∈ keys ∧ p.2.Value = mp.MapIndexIface p.1.Value

/-! ## The edit commands -/

/-- The method `SetChanged`: sets the flag and emits `ViewSig` (the toolbar update that
follows is nil safe and changes nothing of the state). -/
def SetChanged (mv : MapView) : MapView :=
  { mv with Changed := true, viewSigEmits := mv.viewSigEmits + 1 }

/-- The statement `if mv.TmpSave != nil { mv.TmpSave.SaveTmp() }`. -/
def saveTmp (mv : MapView) : MapView :=
  match mv.TmpSave with
  | none => mv
  | some _ => { mv with tmpSaves := mv.tmpSaves + 1 }

/-- The method `MapChangeValueType(idx, typ)`; `none` when `mv.Keys[idx]` or
`mv.Values[idx]` is out of range. -/
def MapChangeValueType (env : Env) (idx : Int) (typ : GoType) (mv : MapView) :
    Option MapView :=
  match mv.Map with
  | none => some mv
  | some mp =>
    if idx < 0 then none
    else
      match mv.Keys[idx.toNat]? with
      | none => none
      | some keyv =>
        let ck := keyv.Value
        match mv.Values[idx.toNat]? with
        | none => none
        | some valv =>
          let cv := valv.Value
          let evn := if env.ValueIsZero cv then env.MakeOfType typ
            else env.CloneToType typ cv
          let mv1 := { mv with
            Values := mv.Values.set idx.toNat { valv with Value := evn },
            Map := some (mp.SetMapIndex ck evn) }
          (ConfigMapGrid env (saveTmp mv1)).map SetChanged

/-- The method `ToggleSort`. -/
def ToggleSort (env : Env) (mv : MapView) : Option MapView :=
  ConfigMapGrid env { mv with SortVals := !mv.SortVals }

/-- The method `MapAdd`. -/
def MapAdd (env : Env) (mv : MapView) : Option MapView :=
  match mv.Map with
  | none => some mv
  | some mp =>
    (ConfigMapGrid env (saveTmp { mv with Map := some (env.MapAdd mp) })).map SetChanged

/-- The method `MapDelete(key)`. -/
def MapDelete (env : Env) (key : GoVal) (mv : MapView) : Option MapView :=
  match mv.Map with
  | none => some mv
  | some mp =>
    (ConfigMapGrid env (saveTmp { mv with Map := some (mp.MapDeleteValue key) })).map SetChanged

/-! ## The toolbar -/

/-- The fields of the struct whose addresses `ConfigToolbar` takes. -/
inductive Field where
  | Map
  | ToolbarMap
  deriving DecidableEq, Repr

/-- Equality of the pointers to two fields of one `MapView`: two pointers are equal
only when they point to the same variable. -/
def sameFieldAddr (f g : Field) : Bool := decide (f = g)

/-- The loop `for i := sz - 1; i >= nBuiltin; i-- { tb.DeleteChildAtIndex(i, true) }`
with `n` iterations left, the next one at index `nBuiltin + n - 1`. -/
def deleteExtra (nBuiltin : Nat) : Nat → List String → List String
  | 0, kids => kids
  | n + 1, kids => deleteExtra nBuiltin n (kids.eraseIdx (nBuiltin + n))

/-- The method `ConfigToolbar`; `none` when there is no `toolbar` child
(a nil `tb` is dereferenced). -/
def ConfigToolbar (env : Env) (mv : MapView) : Option MapView :=
  match mv.Map with
  | none => some mv
  | some mp =>
    if mv.inactive then some mv
    else if sameFieldAddr Field.ToolbarMap Field.Map then some mv
    else
      let nBuiltin := 2
      match mv.toolbar with
      | none => none
      | some tb =>
        let tb1 := if tb.length = 0 then (tb ++ ["Add"]) ++ ["Sort"] else tb
        let sz := tb1.length
        let tb2 := if sz > nBuiltin then deleteExtra nBuiltin (sz - nBuiltin) tb1 else tb1
        let dels := if sz > nBuiltin then sz - nBuiltin else 0
        let hasView := env.HasToolBarView mp
        some { mv with
          toolbar := some (if hasView then env.ToolBarView mp tb2 else tb2),
          toolbarDeletes := mv.toolbarDeletes + dels,
          toolBarViewCalls := mv.toolBarViewCalls + (if hasView then 1 else 0),
          ToolbarMap := mv.Map }

/-! ## Binding and updating -/

/-- The method `StdConfig`: `ConfigChildren` with the list of `StdFrameConfig` keeps
the children `toolbar` and `map-grid` that exist and creates the missing ones. -/
def StdConfig (mv : MapView) : MapView :=
  { mv with
    toolbar := some (mv.toolbar.getD []),
    mapGrid := some (mv.mapGrid.getD { columns := 0, Kids := [] }) }

/-- The method `UpdateFromMap`. -/
def UpdateFromMap (env : Env) (mv : MapView) : Option MapView :=
  (ConfigMapGrid env (StdConfig mv)).bind (ConfigToolbar env)

/-- The method `UpdateValues`. -/
def UpdateValues (env : Env) (mv : MapView) : Option MapView :=
  ConfigMapGrid env mv

/-- The method `SetMap(mp, tmpSave)`. -/
def SetMap (env : Env) (mp : Option GoMap) (tmpSave : Option ValueView) (mv : MapView) :
    Option MapView :=
  UpdateFromMap env { mv with Map := mp, TmpSave := tmpSave }

/-- The operations of the component, with their arguments. -/
inductive Op where
  | SetMap (mp : Option GoMap) (tmpSave : Option ValueView)
  | UpdateFromMap
  | UpdateValues
  | ConfigMapGrid
  | ConfigToolbar
  | SetChanged
  | MapAdd
  | MapDelete (key : GoVal)
  | MapChangeValueType (idx : Int) (typ : GoType)
  | ToggleSort

/-- Running an operation on a state. -/
def Op.run (env : Env) : Op → MapView → Option MapView
  | .SetMap mp tmpSave, mv => Giv.SetMap env mp tmpSave mv
  | .UpdateFromMap, mv => Giv.UpdateFromMap env mv
  | .UpdateValues, mv => Giv.UpdateValues env mv
  | .ConfigMapGrid, mv => Giv.ConfigMapGrid env mv
  | .ConfigToolbar, mv => Giv.ConfigToolbar env mv
  | .SetChanged, mv => some (Giv.SetChanged mv)
  | .MapAdd, mv => Giv.MapAdd env mv
  | .MapDelete key, mv => Giv.MapDelete env key mv
  | .MapChangeValueType idx typ, mv => Giv.MapChangeValueType env idx typ mv
  | .ToggleSort, mv => Giv.ToggleSort env mv

/-- The states in which an operation faults: `MapChangeValueType` on a bound map with
an index outside `Keys` or `Values`, and `ConfigToolbar` on a bound, active view that has
no `toolbar` child. -/
def Op.faults : Op → MapView → Bool
  | .MapChangeValueType idx _, mv =>
    mv.Map.isSome && (decide (idx < 0) || decide (mv.Keys.length ≤ idx.toNat)
      || decide (mv.Values.length ≤ idx.toNat))
  | .ConfigToolbar, mv => mv.Map.isSome && !mv.inactive && mv.toolbar.isNone
  | _, _ => false

/-- The operations that are edits: `SetChanged` itself, and `MapAdd`, `MapDelete` and
`MapChangeValueType` on a bound map. -/
def Op.marksChanged : Op → MapView → Bool
  | .SetChanged, _ => true
  | .MapAdd, mv => mv.Map.isSome
  | .MapDelete _, mv => mv.Map.isSome
  | .MapChangeValueType _ _, mv => mv.Map.isSome
  | _, _ => false

/-! ## A concrete environment and sample states -/

/-- The method `reflect.Value.String()`: the string itself for a value of kind String,
and a text of the form `<T Value>` for every other kind. -/
def reflectValueString : GoVal → String
  | .str s => s
  | .int _ => "<int Value>"
  | .bool _ => "<bool Value>"
  | .nil => "<invalid Value>"

/-- The conversion `kit.ToString` of the `kit` library on the values of the model: an
argument that is a `fmt.Stringer`, as a `reflect.Value` is, is rendered by its `String`
method; a nil interface is "nil"; numbers and booleans are rendered by `strconv`. -/
def kitToString : Iface → String
  | .reflectValue v => reflectValueString v
  | .val .nil => "nil"
  | .val (.bool b) => if b then "true" else "false"
  | .val (.int n) => toString n
  | .val (.str s) => s

/-- The zero value of a type. -/
def zeroOf : GoType → GoVal
  | .bool => .bool false
  | .int => .int 0
  | .string => .str ""
  | .emptyInterface => .nil
  | .namedInterface _ => .nil

/-- A conversion of a value to a type in the manner of `kit.CloneToType`. -/
def cloneTo : GoType → GoVal → GoVal
  | .string, v => .str (kitToString (Iface.val v))
  | .int, .int n => .int n
  | .int, .bool b => .int (if b then 1 else 0)
  | .int, _ => .int 0
  | .bool, .bool b => .bool b
  | .bool, .int n => .bool (decide (n ≠ 0))
  | .bool, _ => .bool false
  | .emptyInterface, v => v
  | .namedInterface _, _ => .nil

/-- Modelled from the spec: the factory `ToValueView` of `giv/valueview.go`, which is not
among the sources.  It returns a view for every value: the grid shows a row also for a
value that is a nil interface (its type selector then defaults to the string type), and
the callers mark a nil result as something that should not happen. -/
def toValueView : GoVal → Option ValueView
  | .nil => some { Value := .nil, widget := WidgetType.TextField }
  | .bool b => some { Value := .bool b, widget := WidgetType.CheckBox }
  | .int n => some { Value := .int n, widget := WidgetType.SpinBox }
  | .str s => some { Value := .str s, widget := WidgetType.TextField }

/-- A concrete environment, used to evaluate the code on sample inputs. -/
def stdEnv : Env where
  ToString := kitToString
  ToValueView := toValueView
  ValueIsZero := fun v => decide (v = GoVal.nil) || decide (v = GoVal.bool false)
    || decide (v = GoVal.int 0) || decide (v = GoVal.str "")
  MakeOfType := zeroOf
  CloneToType := cloneTo
  MapAdd := fun m => m.SetMapIndex (zeroOf m.keyType) (zeroOf m.elemType)
  HasToolBarView := fun _ => false
  ToolBarView := fun _ tb => tb

/-- The environment `stdEnv` with a toolbar contributor registered for every map, which
appends one action. -/
def tbEnv : Env :=
  { stdEnv with HasToolBarView := fun _ => true, ToolBarView := fun _ tb => tb ++ ["Custom"] }

/-- A freshly created view: nothing bound, no children. -/
def newView : MapView where
  Map := none
  Changed := false
  Keys := []
  Values := []
  SortVals := false
  TmpSave := none
  ToolbarMap := none
  inactive := false
  toolbar := none
  mapGrid := none
  viewSigEmits := 0
  tmpSaves := 0
  toolBarViewCalls := 0
  toolbarDeletes := 0

/-- A view with its two children whose `Map` field holds the given map. -/
def viewOn (mp : GoMap) (sortVals : Bool) : MapView :=
  { StdConfig newView with Map := some mp, SortVals := sortVals }

/-- The map `map[string]int{"b": 2, "a": 1}` of Scenario A, enumerated as b, a. -/
def mapBA : GoMap :=
  { keyType := .string, elemType := .int, entries := [(.str "b", .int 2), (.str "a", .int 1)] }

/-- The map of Scenario A after `a` is set to 3. -/
def mapBA3 : GoMap := mapBA.SetMapIndex (.str "a") (.int 3)

/-- The map `map[int]string{2: "x", 1: "y"}`, enumerated as 2, 1. -/
def mapInt21 : GoMap :=
  { keyType := .int, elemType := .string, entries := [(.int 2, .str "x"), (.int 1, .str "y")] }

/-- The map `map[string]interface{}{"x": 5}` of Scenario B. -/
def mapX5 : GoMap :=
  { keyType := .string, elemType := .emptyInterface, entries := [(.str "x", .int 5)] }

/-- The map `map[string]int{"a": 1, "b": 1}`, enumerated as a, b. -/
def mapTieAB : GoMap :=
  { keyType := .string, elemType := .int, entries := [(.str "a", .int 1), (.str "b", .int 1)] }

/-- The same map enumerated as b, a. -/
def mapTieBA : GoMap :=
  { keyType := .string, elemType := .int, entries := [(.str "b", .int 1), (.str "a", .int 1)] }

/-- The empty map `map[string]interface{}{}`. -/
def mapEmpty : GoMap :=
  { keyType := .string, elemType := .emptyInterface, entries := [] }

/-- A view whose `Keys` and `Values` were built for the given map by `ConfigMapGrid`. -/
def builtView (env : Env) (mp : GoMap) (sortVals : Bool) : MapView :=
  (ConfigMapGrid env (viewOn mp sortVals)).getD (viewOn mp sortVals)

/-- A view bound with `SetMap`, or the fresh view should `SetMap` fault. -/
def boundView (env : Env) (mp : GoMap) : MapView :=
  (SetMap env (some mp) none newView).getD newView

/-! ## Facts about the sort -/

theorem insertBack_perm {α : Type} (less : α → α → Bool) (x : α) (l : List α) :
    (insertBack less x l).Perm (x :: l) := by
  induction l with
  | nil => exact List.Perm.refl _
  | cons y ys ih =>
    unfold insertBack
    split
    · exact (List.Perm.cons y ih).trans (List.Perm.swap x y ys)
    · exact List.Perm.refl _

theorem foldl_insertBack_perm {α : Type} (less : α → α → Bool) (l acc : List α) :
    (l.foldl (fun acc x => insertBack less x acc) acc).Perm (l ++ acc) := by
  induction l generalizing acc with
  | nil => exact List.Perm.refl _
  | cons x xs ih =>
    have h1 := ih (insertBack less x acc)
    have h2 : (xs ++ insertBack less x acc).Perm (xs ++ x :: acc) :=
      List.Perm.append_left xs (insertBack_perm less x acc)
    have h3 : (xs ++ x :: acc).Perm (x :: xs ++ acc) := by
      exact List.perm_middle
    exact (h1.trans h2).trans h3

/-- The sorted slice holds the same elements as the slice given. -/
theorem sortSlice_perm {α : Type} (less : α → α → Bool) (l : List α) :
    (sortSlice less l).Perm l := by
  unfold sortSlice
  have h := foldl_insertBack_perm less l []
  simp only [List.append_nil] at h
  exact (List.reverse_perm _).trans h

theorem insertBack_desc {α : Type} (t : α → List Char) (x : α) (l : List α)
    (hl : l.Pairwise (fun a b => t b ≤ t a)) :
    (insertBack (fun a b => decide (t a < t b)) x l).Pairwise (fun a b => t b ≤ t a) := by
  induction l with
  | nil => simp [insertBack]
  | cons y ys ih =>
    rw [List.pairwise_cons] at hl
    unfold insertBack
    by_cases hxy : t x < t y
    · simp only [hxy, decide_True, if_true]
      rw [List.pairwise_cons]
      refine ⟨?_, ih hl.2⟩
      intro z hz
      have hz' := (insertBack_perm _ x ys).mem_iff.mp hz
      rcases List.mem_cons.mp hz' with hzx | hzy
      · rw [hzx]
        exact le_of_lt hxy
      · exact hl.1 z hzy
    · have hyx : t y ≤ t x := not_lt.mp hxy
      simp only [hxy, decide_False, Bool.false_eq_true, if_false]
      rw [List.pairwise_cons]
      refine ⟨?_, List.pairwise_cons.mpr hl⟩
      intro z hz
      rcases List.mem_cons.mp hz with hzy | hzy
      · rw [hzy]
        exact hyx
      · exact le_trans (hl.1 z hzy) hyx

theorem foldl_insertBack_desc {α : Type} (t : α → List Char) (l acc : List α)
    (hacc : acc.Pairwise (fun a b => t b ≤ t a)) :
    (l.foldl (fun acc x => insertBack (fun a b => decide (t a < t b)) x acc) acc).Pairwise
      (fun a b => t b ≤ t a) := by
  induction l generalizing acc with
  | nil => exact hacc
  | cons x xs ih => exact ih _ (insertBack_desc t x acc hacc)

/-- A slice sorted with a comparison of texts is in ascending order of the texts. -/
theorem sortSlice_sorted {α : Type} (text : α → String) (l : List α) :
    (sortSlice (fun a b => strLess (text a) (text b)) l).Pairwise
      (fun a b => (text a).toList ≤ (text b).toList) := by
  unfold sortSlice
  rw [List.pairwise_reverse]
  exact foldl_insertBack_desc (fun a => (text a).toList) l [] List.Pairwise.nil

/-- When the texts of the elements are pairwise distinct, the sorted slice does not depend
on the order in which the elements are given. -/
theorem sortSlice_unique {α : Type} (text : α → String) (l₁ l₂ : List α)
    (hperm : l₁.Perm l₂) (hnd : (l₁.map text).Nodup) :
    sortSlice (fun a b => strLess (text a) (text b)) l₁
      = sortSlice (fun a b => strLess (text a) (text b)) l₂ := by
  let r : α → α → Prop := fun a b => (text a).toList < (text b).toList
  haveI : IsAntisymm α r := ⟨fun a b hab hba => absurd hab (lt_asymm hba)⟩
  have key : ∀ l : List α, (l.map text).Nodup →
      (sortSlice (fun a b => strLess (text a) (text b)) l).Pairwise r := by
    intro l hl
    have hs := sortSlice_sorted text l
    have hp := sortSlice_perm (fun a b => strLess (text a) (text b)) l
    have hnd2 : ((sortSlice (fun a b => strLess (text a) (text b)) l).map text).Nodup :=
      (hp.map text).nodup_iff.mpr hl
    have hne := List.pairwise_map.mp hnd2
    refine (hs.and hne).imp ?_
    intro a b hab
    refine lt_of_le_of_ne hab.1 ?_
    intro heq
    exact hab.2 (String.toList_inj.mp heq)
  have hnd' : (l₂.map text).Nodup := (hperm.map text).nodup_iff.mp hnd
  refine List.eq_of_perm_of_sorted (r := r) ?_ (key l₁ hnd) (key l₂ hnd')
  exact ((sortSlice_perm _ l₁).trans hperm).trans (sortSlice_perm _ l₂).symm

/-! ## Facts about maps -/

theorem lookupKey_some_mem (k v : GoVal) (l : List (GoVal × GoVal))
    (h : lookupKey k l = some v) : (k, v) ∈ l := by
  induction l with
  | nil => simp [lookupKey] at h
  | cons e rest ih =>
    obtain ⟨k', v'⟩ := e
    by_cases hk : k' = k
    · subst hk
      simp [lookupKey] at h
      simp [h]
    · simp [lookupKey, hk] at h
      exact List.mem_cons_of_mem _ (ih h)

theorem lookupKey_none_iff (k : GoVal) (l : List (GoVal × GoVal)) :
    lookupKey k l = none ↔ k ∉ l.map Prod.fst := by
  induction l with
  | nil => simp [lookupKey]
  | cons e rest ih =>
    obtain ⟨k', v'⟩ := e
    by_cases hk : k' = k
    · subst hk
      simp [lookupKey]
    · have hk' : ¬ k = k' := fun h => hk h.symm
      simp [lookupKey, hk, hk', ih]

theorem lookupKey_of_nodup (k v : GoVal) (l : List (GoVal × GoVal))
    (hnd : (l.map Prod.fst).Nodup) (hmem : (k, v) ∈ l) : lookupKey k l = some v := by
  induction l with
  | nil => simp at hmem
  | cons e rest ih =>
    obtain ⟨k', v'⟩ := e
    simp only [List.map_cons, List.nodup_cons] at hnd
    rcases List.mem_cons.mp hmem with heq | hrest
    · cases heq
      simp [lookupKey]
    · have hne : ¬ k' = k := by
        intro h
        subst h
        exact hnd.1 (List.mem_map_of_mem Prod.fst hrest)
      simp [lookupKey, hne, ih hnd.2 hrest]

/-- The value found under a key does not depend on the enumeration order of the map. -/
theorem lookupKey_perm (k : GoVal) (l₁ l₂ : List (GoVal × GoVal)) (hperm : l₁.Perm l₂)
    (hnd : (l₁.map Prod.fst).Nodup) : lookupKey k l₁ = lookupKey k l₂ := by
  have hnd₂ : (l₂.map Prod.fst).Nodup := (hperm.map Prod.fst).nodup_iff.mp hnd
  cases h : lookupKey k l₁ with
  | none =>
    have h1 := (lookupKey_none_iff k l₁).mp h
    have h2 : k ∉ l₂.map Prod.fst := fun hk => h1 ((hperm.map Prod.fst).mem_iff.mpr hk)
    exact ((lookupKey_none_iff k l₂).mpr h2).symm
  | some v =>
    have h1 := lookupKey_some_mem k v l₁ h
    exact (lookupKey_of_nodup k v l₂ hnd₂ (hperm.mem_iff.mp h1)).symm

/-- Deleting a key that the map does not hold leaves the entries as they are. -/
theorem MapDeleteValue_absent (mp : GoMap) (k : GoVal) (h : mp.MapIndex k = none) :
    mp.MapDeleteValue k = mp := by
  have hk : k ∉ mp.entries.map Prod.fst := (lookupKey_none_iff k mp.entries).mp h
  have hf : mp.entries.filter (fun e => decide (e.1 ≠ k)) = mp.entries := by
    rw [List.filter_eq_self]
    intro e he
    have : e.1 ≠ k := fun heq => hk (heq ▸ List.mem_map_of_mem Prod.fst he)
    simpa using this
  unfold GoMap.MapDeleteValue
  rw [hf]

/-! ## The shape of the grid -/

theorem foldl_inv {α β : Type} (f : β → α → β) (P : β → Prop) (l : List α) (b : β)
    (hb : P b) (hstep : ∀ b a, a ∈ l → P b → P (f b a)) : P (l.foldl f b) := by
  induction l generalizing b with
  | nil => exact hb
  | cons x xs ih =>
    refine ih (f b x) (hstep b x (List.mem_cons_self x xs) hb) ?_
    intro b' a ha hP
    exact hstep b' a (List.mem_cons_of_mem x ha) hP

theorem flatRows_append (env : Env) (ifaceType : Bool) (a b : List (ValueView × ValueView)) :
    flatRows env ifaceType (a ++ b) = flatRows env ifaceType a ++ flatRows env ifaceType b := by
  induction a with
  | nil => simp [flatRows]
  | cons r rs ih => simp [flatRows, ih]

theorem rowSlots_length (env : Env) (ifaceType : Bool) (kv vv : ValueView) :
    (rowSlots env ifaceType kv vv).length = if ifaceType then 4 else 3 := by
  cases ifaceType <;> simp [rowSlots]

/-- Slot `j` of row `i` sits at index `i * ncol + j` of the child list. -/
theorem flatRows_getElem? (env : Env) (ifaceType : Bool) (rows : List (ValueView × ValueView))
    (i j : Nat) (r : ValueView × ValueView) (hr : rows[i]? = some r)
    (hj : j < (if ifaceType then 4 else 3)) :
    (flatRows env ifaceType rows)[i * (if ifaceType then 4 else 3) + j]?
      = (rowSlots env ifaceType r.1 r.2)[j]? := by
  induction rows generalizing i with
  | nil => simp at hr
  | cons r0 rs ih =>
    cases i with
    | zero =>
      simp only [List.getElem?_cons_zero, Option.some.injEq] at hr
      subst hr
      simp only [flatRows, Nat.zero_mul, Nat.zero_add]
      exact List.getElem?_append_left (by rw [rowSlots_length]; exact hj)
    | succ i' =>
      simp only [List.getElem?_cons_succ] at hr
      have hlen := rowSlots_length env ifaceType r0.1 r0.2
      have hle : (rowSlots env ifaceType r0.1 r0.2).length
          ≤ (i' + 1) * (if ifaceType then 4 else 3) + j := by
        rw [hlen, Nat.add_mul]
        omega
      simp only [flatRows]
      rw [List.getElem?_append_right hle, hlen]
      have hidx : (i' + 1) * (if ifaceType then 4 else 3) + j - (if ifaceType then 4 else 3)
          = i' * (if ifaceType then 4 else 3) + j := by
        rw [Nat.add_mul]
        omega
      rw [hidx]
      exact ih i' hr

theorem gridStep_skip_key (env : Env) (mp : GoMap) (ifaceType : Bool) (acc : GridAcc)
    (key : GoVal) (hk : env.ToValueView key = none) :
    gridStep env mp ifaceType acc key = acc := by
  simp only [gridStep, hk]

theorem gridStep_skip_val (env : Env) (mp : GoMap) (ifaceType : Bool) (acc : GridAcc)
    (key : GoVal) (hv : env.ToValueView (mp.MapIndexIface key) = none) :
    gridStep env mp ifaceType acc key = acc := by
  unfold gridStep
  cases env.ToValueView key with
  | none => rfl
  | some kv0 => simp only [hv]

theorem gridStep_ok (env : Env) (mp : GoMap) (ifaceType : Bool) (acc : GridAcc)
    (key : GoVal) (kv0 vv0 : ValueView) (hk : env.ToValueView key = some kv0)
    (hv : env.ToValueView (mp.MapIndexIface key) = some vv0) :
    gridStep env mp ifaceType acc key =
      { config := acc.config ++ rowSlots env ifaceType (kv0.SetMapKey key)
          (vv0.SetMapValue (mp.MapIndexIface key)),
        Keys := acc.Keys ++ [kv0.SetMapKey key],
        Values := acc.Values ++ [vv0.SetMapValue (mp.MapIndexIface key)] } := by
  simp only [gridStep, hk, hv]
  cases ifaceType <;> simp [rowSlots, ValueView.SetMapKey]

theorem gridStep_inv (env : Env) (mp : GoMap) (ifaceType : Bool) (keys : List GoVal)
    (acc : GridAcc) (key : GoVal) (hkey : key ∈ keys)
    (h : GridInv env mp ifaceType keys acc) :
    GridInv env mp ifaceType keys (gridStep env mp ifaceType acc key) := by
  cases hk : env.ToValueView key with
  | none => rw [gridStep_skip_key env mp ifaceType acc key hk]; exact h
  | some kv0 =>
    cases hv : env.ToValueView (mp.MapIndexIface key) with
    | none => rw [gridStep_skip_val env mp ifaceType acc key hv]; exact h
    | some vv0 =>
      rw [gridStep_ok env mp ifaceType acc key kv0 vv0 hk hv]
      obtain ⟨hlen, hcfg, hrows⟩ := h
      refine ⟨?_, ?_, ?_⟩
      · simp [hlen]
      · simp only [List.zip_append hlen, flatRows_append, ← hcfg]
        simp [flatRows]
      · intro p hp
        simp only [List.zip_append hlen, List.mem_append] at hp
        rcases hp with hp | hp
        · exact hrows p hp
        · simp only [List.zip_cons_cons, List.zip_nil_right, List.mem_singleton] at hp
          subst hp
          exact ⟨hkey, rfl⟩

/-- The loop invariant holds for the lists that `ConfigMapGrid` builds. -/
theorem buildGrid_inv (env : Env) (mp : GoMap) (sortVals : Bool) :
    GridInv env mp (isIfaceType mp.elemType) mp.MapKeys (buildGrid env mp sortVals) := by
  unfold buildGrid
  refine foldl_inv _ (GridInv env mp (isIfaceType mp.elemType) mp.MapKeys) _ _ ?_ ?_
  · exact ⟨rfl, rfl, by simp⟩
  · intro acc key hkey hacc
    exact gridStep_inv env mp _ mp.MapKeys acc key
      ((sortSlice_perm _ mp.MapKeys).mem_iff.mp hkey) hacc

/-- Under the loop invariant the slots of entry `i` are the key widget, the value widget,
the type selector when the values are `interface{}`, and the delete action, each named
after the text of the entry's key. -/
theorem grid_slots (env : Env) (mp : GoMap) (ifaceType : Bool) (keys : List GoVal)
    (acc : GridAcc) (h : GridInv env mp ifaceType keys acc) (i : Nat) (kv vv : ValueView)
    (hk : acc.Keys[i]? = some kv) (hv : acc.Values[i]? = some vv) :
    acc.config[i * (if ifaceType then 4 else 3)]?
        = some (kv.widget, "key-" ++ env.ToString (Iface.val kv.Value)) ∧
    acc.config[i * (if ifaceType then 4 else 3) + 1]?
        = some (vv.widget, "value-" ++ env.ToString (Iface.val kv.Value)) ∧
    (ifaceType = true → acc.config[i * (if ifaceType then 4 else 3) + 2]?
        = some (WidgetType.ComboBox, "type-" ++ env.ToString (Iface.val kv.Value))) ∧
    acc.config[i * (if ifaceType then 4 else 3) + (if ifaceType then 4 else 3) - 1]?
        = some (WidgetType.Action, "del-" ++ env.ToString (Iface.val kv.Value)) := by
  obtain ⟨_, hcfg, _⟩ := h
  have hrow : (acc.Keys.zip acc.Values)[i]? = some (kv, vv) :=
    List.getElem?_zip_eq_some.mpr ⟨hk, hv⟩
  have key := fun j hj =>
    flatRows_getElem? env ifaceType (acc.Keys.zip acc.Values) i j (kv, vv) hrow hj
  rw [hcfg]
  cases ifaceType with
  | false =>
    have h0 := key 0 (by decide)
    have h1 := key 1 (by decide)
    have h2 := key 2 (by decide)
    simp only [Bool.false_eq_true, if_false, Nat.add_zero] at h0 h1 h2 ⊢
    refine ⟨by rw [h0]; simp [rowSlots], by rw [h1]; simp [rowSlots], ?_, ?_⟩
    · intro hf; exact absurd hf (by decide)
    · have : i * 3 + 3 - 1 = i * 3 + 2 := by omega
      rw [this, h2]; simp [rowSlots]
  | true =>
    have h0 := key 0 (by decide)
    have h1 := key 1 (by decide)
    have h2 := key 2 (by decide)
    have h3 := key 3 (by decide)
    simp only [if_true, Nat.add_zero] at h0 h1 h2 h3 ⊢
    refine ⟨by rw [h0]; simp [rowSlots], by rw [h1]; simp [rowSlots], ?_, ?_⟩
    · intro _; rw [h2]; simp [rowSlots]
    · have : i * 4 + 4 - 1 = i * 4 + 3 := by omega
      rw [this, h3]; simp [rowSlots]

theorem wireEntry_ok (env : Env) (mp : GoMap) (ifaceType : Bool) (keys : List GoVal)
    (acc : GridAcc) (h : GridInv env mp ifaceType keys acc) (i : Nat)
    (hi : i < acc.Values.length) :
    wireEntry acc.config acc.Keys (if ifaceType then 4 else 3) ifaceType i = some () := by
  have hlen := h.1
  have hik : i < acc.Keys.length := by omega
  have hk : acc.Keys[i]? = some acc.Keys[i] := List.getElem?_eq_getElem hik
  have hv : acc.Values[i]? = some acc.Values[i] := List.getElem?_eq_getElem hi
  obtain ⟨s0, s1, s2, s3⟩ := grid_slots env mp ifaceType keys acc h i _ _ hk hv
  unfold wireEntry
  rw [s0, s1, hk, s3]
  cases ifaceType with
  | false => simp
  | true =>
    have s2' := s2 rfl
    simp only [if_true] at s2'
    simp [s2']

theorem wireAll_ok (env : Env) (mp : GoMap) (ifaceType : Bool) (keys : List GoVal)
    (acc : GridAcc) (h : GridInv env mp ifaceType keys acc) (n : Nat)
    (hn : n ≤ acc.Values.length) :
    wireAll acc.config acc.Keys (if ifaceType then 4 else 3) ifaceType n = some () := by
  induction n with
  | zero => rfl
  | succ m ih =>
    unfold wireAll
    rw [ih (by omega)]
    exact wireEntry_ok env mp ifaceType keys acc h m (by omega)

/-! ## What ConfigMapGrid returns -/

theorem ConfigMapGrid_unbound (env : Env) (mv : MapView) (h : mv.Map = none) :
    ConfigMapGrid env mv = some mv := by
  unfold ConfigMapGrid
  rw [h]

theorem ConfigMapGrid_nogrid (env : Env) (mv : MapView) (h : mv.mapGrid = none) :
    ConfigMapGrid env mv = some mv := by
  unfold ConfigMapGrid
  cases mv.Map with
  | none => rfl
  | some mp => simp only [h]

/-- On a bound map with the grid frame present, `ConfigMapGrid` never faults in its
wiring loop and installs the freshly built lists. -/
theorem ConfigMapGrid_bound (env : Env) (mv : MapView) (mp : GoMap) (g : Frame)
    (hm : mv.Map = some mp) (hg : mv.mapGrid = some g) :
    ConfigMapGrid env mv = some { mv with
      Keys := (buildGrid env mp mv.SortVals).Keys,
      Values := (buildGrid env mp mv.SortVals).Values,
      mapGrid := some { columns := ncolOf mp, Kids := (buildGrid env mp mv.SortVals).config } } := by
  have hw := wireAll_ok env mp _ _ _ (buildGrid_inv env mp mv.SortVals)
    (buildGrid env mp mv.SortVals).Values.length (Nat.le_refl _)
  unfold ConfigMapGrid
  simp only [hm, hg, ncolOf, hw]

/-- The method `ConfigMapGrid` always returns, and touches nothing but `Keys`, `Values`
and the grid frame. -/
theorem ConfigMapGrid_frame (env : Env) (mv : MapView) :
    ∃ mv', ConfigMapGrid env mv = some mv' ∧ mv'.Map = mv.Map ∧ mv'.Changed = mv.Changed ∧
      mv'.SortVals = mv.SortVals ∧ mv'.TmpSave = mv.TmpSave ∧
      mv'.ToolbarMap = mv.ToolbarMap ∧ mv'.inactive = mv.inactive ∧
      mv'.toolbar = mv.toolbar ∧ mv'.viewSigEmits = mv.viewSigEmits ∧
      mv'.tmpSaves = mv.tmpSaves ∧ mv'.toolBarViewCalls = mv.toolBarViewCalls ∧
      mv'.toolbarDeletes = mv.toolbarDeletes := by
  cases hm : mv.Map with
  | none =>
    exact ⟨mv, ConfigMapGrid_unbound env mv hm, hm, rfl, rfl, rfl, rfl, rfl, rfl, rfl, rfl,
      rfl, rfl⟩
  | some mp =>
    cases hg : mv.mapGrid with
    | none =>
      exact ⟨mv, ConfigMapGrid_nogrid env mv hg, hm, rfl, rfl, rfl, rfl, rfl, rfl, rfl, rfl,
        rfl, rfl⟩
    | some g =>
      exact ⟨_, ConfigMapGrid_bound env mv mp g hm hg, hm, rfl, rfl, rfl, rfl, rfl, rfl, rfl,
        rfl, rfl, rfl⟩

/-! ## Facts about the commands -/

theorem saveTmp_fields (mv : MapView) :
    (saveTmp mv).Map = mv.Map ∧ (saveTmp mv).Changed = mv.Changed ∧
    (saveTmp mv).Keys = mv.Keys ∧ (saveTmp mv).Values = mv.Values ∧
    (saveTmp mv).SortVals = mv.SortVals ∧ (saveTmp mv).TmpSave = mv.TmpSave ∧
    (saveTmp mv).mapGrid = mv.mapGrid ∧ (saveTmp mv).viewSigEmits = mv.viewSigEmits ∧
    (saveTmp mv).tmpSaves = mv.tmpSaves + (if mv.TmpSave.isSome then 1 else 0) := by
  unfold saveTmp
  cases h : mv.TmpSave <;> simp [h]

/-- A command that rebuilds the grid and then calls `SetChanged` returns, with the map it
was given, the flag set and one more `ViewSig` emitted. -/
theorem rebuild_then_SetChanged (env : Env) (mv : MapView) :
    ∃ mv', (ConfigMapGrid env (saveTmp mv)).map SetChanged = some mv' ∧ mv'.Map = mv.Map ∧
      mv'.Changed = true ∧ mv'.viewSigEmits = mv.viewSigEmits + 1 ∧
      mv'.tmpSaves = mv.tmpSaves + (if mv.TmpSave.isSome then 1 else 0) := by
  obtain ⟨m1, h1, hMap, _, _, _, _, _, _, hEm, hTs, _, _⟩ := ConfigMapGrid_frame env (saveTmp mv)
  obtain ⟨sMap, _, _, _, _, _, _, sEm, sTs⟩ := saveTmp_fields mv
  refine ⟨SetChanged m1, by rw [h1]; rfl, ?_, rfl, ?_, ?_⟩
  · show m1.Map = mv.Map
    rw [hMap, sMap]
  · show m1.viewSigEmits + 1 = mv.viewSigEmits + 1
    rw [hEm, sEm]
  · show m1.tmpSaves = _
    rw [hTs, sTs]

theorem ConfigToolbar_changed (env : Env) (mv mv' : MapView)
    (h : ConfigToolbar env mv = some mv') : mv'.Changed = mv.Changed := by
  unfold ConfigToolbar at h
  cases hm : mv.Map with
  | none =>
    rw [hm] at h
    cases h
    rfl
  | some mp =>
    rw [hm] at h
    simp only at h
    split at h
    · cases h; rfl
    · split at h
      · cases h; rfl
      · cases ht : mv.toolbar with
        | none => rw [ht] at h; cases h
        | some tb => rw [ht] at h; cases h; rfl

theorem ConfigToolbar_isSome (env : Env) (mv : MapView)
    (h : (mv.Map.isSome && !mv.inactive && mv.toolbar.isNone) = false) :
    (ConfigToolbar env mv).isSome = true := by
  unfold ConfigToolbar
  cases hm : mv.Map with
  | none => rfl
  | some mp =>
    simp only
    split
    · rfl
    · split
      · rfl
      · cases ht : mv.toolbar with
        | none =>
          rename_i hin _
          simp [hm, ht, hin] at h
        | some tb => rfl

theorem UpdateFromMap_spec (env : Env) (mv : MapView) :
    ∃ mv', UpdateFromMap env mv = some mv' ∧ mv'.Changed = mv.Changed := by
  obtain ⟨m1, h1, _, hCh, _, _, _, hIn, hTb, _, _, _, _⟩ := ConfigMapGrid_frame env (StdConfig mv)
  have hsome : (ConfigToolbar env m1).isSome = true := by
    apply ConfigToolbar_isSome
    have : m1.toolbar = some (mv.toolbar.getD []) := hTb
    simp [this]
  obtain ⟨m2, h2⟩ := Option.isSome_iff_exists.mp hsome
  refine ⟨m2, ?_, ?_⟩
  · unfold UpdateFromMap
    rw [h1]
    exact h2
  · rw [ConfigToolbar_changed env m1 m2 h2, hCh]
    rfl

theorem rebuild_isSome (env : Env) (mv : MapView) :
    ((ConfigMapGrid env mv).map SetChanged).isSome = true := by
  obtain ⟨m1, h1, _⟩ := ConfigMapGrid_frame env mv
  rw [h1]
  rfl

/-- With a bound map `MapChangeValueType` returns exactly when the index is within
`Keys` and `Values`. -/
theorem MapChangeValueType_isSome (env : Env) (idx : Int) (typ : GoType) (mv : MapView)
    (mp : GoMap) (hm : mv.Map = some mp) :
    (MapChangeValueType env idx typ mv).isSome = true ↔
      (0 ≤ idx ∧ idx < (mv.Keys.length : Int) ∧ idx < (mv.Values.length : Int)) := by
  unfold MapChangeValueType
  rw [hm]
  simp only
  by_cases hneg : idx < 0
  · simp only [hneg, if_true]
    constructor
    · intro h; cases h
    · intro h; omega
  · simp only [hneg, if_false]
    have h0 : 0 ≤ idx := by omega
    cases hk : mv.Keys[idx.toNat]? with
    | none =>
      have := List.getElem?_eq_none_iff.mp hk
      simp only [Option.isSome_none, Bool.false_eq_true, false_iff, not_and]
      intro _ hlt
      omega
    | some keyv =>
      have hkl : idx.toNat < mv.Keys.length := (List.getElem?_eq_some.mp hk).1
      cases hv : mv.Values[idx.toNat]? with
      | none =>
        have := List.getElem?_eq_none_iff.mp hv
        simp only [Option.isSome_none, Bool.false_eq_true, false_iff, not_and]
        intro _ _
        omega
      | some valv =>
        have hvl : idx.toNat < mv.Values.length := (List.getElem?_eq_some.mp hv).1
        simp only
        rw [rebuild_isSome]
        simp only [true_iff]
        omega

theorem MapChangeValueType_changed (env : Env) (idx : Int) (typ : GoType) (mv mv' : MapView)
    (mp : GoMap) (hm : mv.Map = some mp) (h : MapChangeValueType env idx typ mv = some mv') :
    mv'.Changed = true := by
  unfold MapChangeValueType at h
  rw [hm] at h
  simp only at h
  split at h
  · cases h
  · split at h
    · cases h
    · split at h
      · cases h
      · simp only [Option.map_eq_some'] at h
        obtain ⟨m1, _, h2⟩ := h
        rw [← h2]
        rfl

/-! ## Facts used for the grid shape, the retyping and the enumeration order -/

theorem foldl_gridStep_sublist (env : Env) (mp : GoMap) (ifaceType : Bool)
    (l : List GoVal) (acc : GridAcc) :
    ((l.foldl (gridStep env mp ifaceType) acc).Keys.map ValueView.Value).Sublist
      (acc.Keys.map ValueView.Value ++ l) := by
  induction l generalizing acc with
  | nil => simp
  | cons key rest ih =>
    refine (ih (gridStep env mp ifaceType acc key)).trans ?_
    have hskip : (acc.Keys.map ValueView.Value ++ rest).Sublist
        (acc.Keys.map ValueView.Value ++ key :: rest) :=
      List.Sublist.append (List.Sublist.refl _) (List.sublist_cons_self key rest)
    cases hk : env.ToValueView key with
    | none => rw [gridStep_skip_key env mp ifaceType acc key hk]; exact hskip
    | some kv0 =>
      cases hv : env.ToValueView (mp.MapIndexIface key) with
      | none => rw [gridStep_skip_val env mp ifaceType acc key hv]; exact hskip
      | some vv0 =>
        rw [gridStep_ok env mp ifaceType acc key kv0 vv0 hk hv]
        simp [ValueView.SetMapKey]

/-- After `ConfigMapGrid` the keys shown are in ascending order of the text that the sort
compares: of two entries the later one never has the smaller text. -/
theorem ConfigMapGrid_sorted (env : Env) (mv : MapView) (mp : GoMap) (g : Frame)
    (hm : mv.Map = some mp) (hg : mv.mapGrid = some g) :
    ∃ mv', ConfigMapGrid env mv = some mv' ∧
      (mv'.Keys.map ValueView.Value).Pairwise (fun a b =>
        strLess (sortText env mp mv.SortVals b) (sortText env mp mv.SortVals a) = false) := by
  refine ⟨_, ConfigMapGrid_bound env mv mp g hm hg, ?_⟩
  show ((buildGrid env mp mv.SortVals).Keys.map ValueView.Value).Pairwise _
  have hsub := foldl_gridStep_sublist env mp (isIfaceType mp.elemType)
    (sortSlice (sortLess env mp mv.SortVals) mp.MapKeys)
    { config := [], Keys := [], Values := [] }
  simp only [List.map_nil, List.nil_append] at hsub
  have hsorted := sortSlice_sorted (sortText env mp mv.SortVals) mp.MapKeys
  have hp := hsorted.sublist hsub
  refine hp.imp ?_
  intro a b hab
  simp only [strLess, decide_eq_false_iff_not, not_lt]
  exact hab

theorem gridStep_congr (env : Env) (mp₁ mp₂ : GoMap) (ifaceType : Bool) (acc : GridAcc)
    (key : GoVal) (h : ∀ k, mp₁.MapIndexIface k = mp₂.MapIndexIface k) :
    gridStep env mp₁ ifaceType acc key = gridStep env mp₂ ifaceType acc key := by
  simp only [gridStep, h key]

/-- Two enumerations of one map whose sort texts are pairwise distinct give the same
lists. -/
theorem buildGrid_perm (env : Env) (mp₁ mp₂ : GoMap) (sortVals : Bool)
    (he : mp₂.elemType = mp₁.elemType) (hperm : mp₁.entries.Perm mp₂.entries)
    (hdistinct : (mp₁.MapKeys.map (sortText env mp₁ sortVals)).Nodup) :
    buildGrid env mp₂ sortVals = buildGrid env mp₁ sortVals := by
  have hwf : (mp₁.entries.map Prod.fst).Nodup := List.Nodup.of_map _ hdistinct
  have hidx : ∀ k, mp₂.MapIndexIface k = mp₁.MapIndexIface k := by
    intro k
    simp only [GoMap.MapIndexIface, GoMap.MapIndex]
    rw [lookupKey_perm k mp₁.entries mp₂.entries hperm hwf]
  have htext : sortText env mp₂ sortVals = sortText env mp₁ sortVals := by
    funext k
    simp only [sortText, hidx k]
  have hless : sortLess env mp₂ sortVals = sortLess env mp₁ sortVals := by
    funext a b
    simp only [sortLess, htext]
  have hstep : gridStep env mp₂ (isIfaceType mp₂.elemType)
      = gridStep env mp₁ (isIfaceType mp₁.elemType) := by
    funext acc key
    rw [he]
    exact gridStep_congr env mp₂ mp₁ _ acc key hidx
  have hsorted : sortSlice (sortLess env mp₁ sortVals) mp₂.MapKeys
      = sortSlice (sortLess env mp₁ sortVals) mp₁.MapKeys :=
    (sortSlice_unique (sortText env mp₁ sortVals) mp₁.MapKeys mp₂.MapKeys
      (hperm.map Prod.fst) hdistinct).symm
  unfold buildGrid
  simp only [hless, hstep, hsorted]

/-- Scenario B: on `{"x": 5}` with `interface{}` values, changing entry 0 to the string
type leaves one entry, whose value is the string "5". -/
theorem scenarioB_value :
    (MapChangeValueType stdEnv 0 GoType.string (builtView stdEnv mapX5 false)).map
      (fun s => s.Map.map GoMap.entries) = some (some [(GoVal.str "x", GoVal.str "5")]) := by
  decide

/-! ## The claims -/

/-- C1 (the code at a failing input): on `map[int]string{2: "x", 1: "y"}` enumerated as
2, 1, the sort by key compares `kit.ToString` of the two `reflect.Value`s, which is the text
`<int Value>` for both, so the keys stay as enumerated: `Keys` and `Values` come out in the
order 2, 1 although the string rendering "1" of the second key is below the rendering "2"
of the first. -/
theorem C1_sort_by_key_leaves_int_keys_unsorted :
    (ConfigMapGrid stdEnv (viewOn mapInt21 false)).map
        (fun s => (s.Keys.map ValueView.Value, s.Values.map ValueView.Value))
      = some ([GoVal.int 2, GoVal.int 1], [GoVal.str "x", GoVal.str "y"]) ∧
    sortText stdEnv mapInt21 false (GoVal.int 2) = "<int Value>" ∧
    sortText stdEnv mapInt21 false (GoVal.int 1) = "<int Value>" ∧
    stdEnv.ToString (Iface.val (GoVal.int 2)) = "2" ∧
    stdEnv.ToString (Iface.val (GoVal.int 1)) = "1" ∧
    strLess "1" "2" = true := by
  decide

/-- C2 (counterexample): deleting the absent key "z" from the view on
`{"b": 2, "a": 1}`, whose `Changed` flag is false and which has emitted nothing, returns a
view whose `Changed` flag is true and which has emitted `ViewSig` once. -/
theorem C2_absent_key_delete_marks_changed :
    mapBA.MapIndex (GoVal.str "z") = none ∧
    (builtView stdEnv mapBA false).Map = some mapBA ∧
    (builtView stdEnv mapBA false).Changed = false ∧
    (builtView stdEnv mapBA false).viewSigEmits = 0 ∧
    (MapDelete stdEnv (GoVal.str "z") (builtView stdEnv mapBA false)).map
      (fun s => (s.Changed, s.viewSigEmits)) = some (true, 1) := by
  decide

/-- C2 (amended): `MapDelete` with a key that the bound map does not hold leaves the map
(its entries, hence their number) as it is, and otherwise runs like every delete: it
calls `SaveTmp` when `TmpSave` is set, sets `Changed` to true and emits `ViewSig` once. -/
theorem C2_MapDelete_absent_key (env : Env) (mv : MapView) (mp : GoMap) (key : GoVal)
    (hm : mv.Map = some mp) (habs : mp.MapIndex key = none) :
    ∃ mv', MapDelete env key mv = some mv' ∧ mv'.Map = some mp ∧ mv'.Changed = true ∧
      mv'.viewSigEmits = mv.viewSigEmits + 1 ∧
      mv'.tmpSaves = mv.tmpSaves + (if mv.TmpSave.isSome then 1 else 0) := by
  obtain ⟨mv', h, hMap, hCh, hEm, hTs⟩ :=
    rebuild_then_SetChanged env { mv with Map := some (mp.MapDeleteValue key) }
  refine ⟨mv', ?_, ?_, hCh, hEm, hTs⟩
  · unfold MapDelete
    rw [hm]
    exact h
  · rw [hMap]
    show some (mp.MapDeleteValue key) = some mp
    rw [MapDeleteValue_absent mp key habs]

/-- C2 (witness): the amended claim at the view on `{"b": 2, "a": 1}` and the key "z". -/
theorem C2_MapDelete_absent_key_witness :
    ∃ mv', MapDelete stdEnv (GoVal.str "z") (builtView stdEnv mapBA false) = some mv' ∧
      mv'.Map = some mapBA ∧ mv'.Changed = true ∧
      mv'.viewSigEmits = (builtView stdEnv mapBA false).viewSigEmits + 1 ∧
      mv'.tmpSaves = (builtView stdEnv mapBA false).tmpSaves
        + (if (builtView stdEnv mapBA false).TmpSave.isSome then 1 else 0) :=
  C2_MapDelete_absent_key stdEnv (builtView stdEnv mapBA false) mapBA (GoVal.str "z")
    (by decide) (by decide)

/-- C3 (counterexample): on the fresh view, whose `Map` is nil, `ToggleSort` returns a
state that differs from the state before: `SortVals` has become true. -/
theorem C3_ToggleSort_nil_map_flips :
    newView.Map = none ∧ newView.SortVals = false ∧
    ToggleSort stdEnv newView ≠ some newView ∧
    (ToggleSort stdEnv newView).map MapView.SortVals = some true := by
  decide

/-- C3 (amended): when `Map` is nil, `MapAdd`, `MapDelete` and `MapChangeValueType`
return the state unchanged (so nothing is emitted), for every argument, and `ToggleSort`
changes `SortVals` to its negation and nothing else. -/
theorem C3_nil_map_commands (env : Env) (mv : MapView) (key : GoVal) (idx : Int)
    (typ : GoType) (hm : mv.Map = none) :
    MapAdd env mv = some mv ∧ MapDelete env key mv = some mv ∧
    MapChangeValueType env idx typ mv = some mv ∧
    ToggleSort env mv = some { mv with SortVals := !mv.SortVals } := by
  refine ⟨?_, ?_, ?_, ?_⟩
  · unfold MapAdd; rw [hm]
  · unfold MapDelete; rw [hm]
  · unfold MapChangeValueType; rw [hm]
  · unfold ToggleSort
    exact ConfigMapGrid_unbound env _ hm

/-- C3 (witness): the amended claim at the fresh view. -/
theorem C3_nil_map_commands_witness :
    MapAdd stdEnv newView = some newView ∧
    MapDelete stdEnv (GoVal.str "a") newView = some newView ∧
    MapChangeValueType stdEnv 0 GoType.string newView = some newView ∧
    ToggleSort stdEnv newView = some { newView with SortVals := !newView.SortVals } :=
  C3_nil_map_commands stdEnv newView (GoVal.str "a") 0 GoType.string (by decide)

/-- C5: `ToggleSort` always returns; the state it returns has the same map (the same
entries), the same `Changed` flag, the same number of `SaveTmp` calls and of `ViewSig`
emissions, and `SortVals` negated. -/
theorem C5_ToggleSort_only_flips_SortVals (env : Env) (mv : MapView) :
    ∃ mv', ToggleSort env mv = some mv' ∧ mv'.Map = mv.Map ∧ mv'.Changed = mv.Changed ∧
      mv'.tmpSaves = mv.tmpSaves ∧ mv'.viewSigEmits = mv.viewSigEmits ∧
      mv'.SortVals = !mv.SortVals := by
  obtain ⟨mv', h, hMap, hCh, hSv, _, _, _, _, hEm, hTs, _, _⟩ :=
    ConfigMapGrid_frame env { mv with SortVals := !mv.SortVals }
  exact ⟨mv', h, hMap, hCh, hTs, hEm, hSv⟩

/-- C8 (the code at a failing input): after `SetMap` has built the toolbar for a map that
has a toolbar contributor (`ToolbarMap` equals `Map`, the toolbar holds Add, Sort and the
contributed action, the contributor was called once), a further `ConfigToolbar` does not
skip, since the addresses of two distinct fields are never equal: it deletes the
contributed action and calls the contributor a second time. -/
theorem C8_ConfigToolbar_runs_again :
    sameFieldAddr Field.ToolbarMap Field.Map = false ∧
    (boundView tbEnv mapBA).Map = some mapBA ∧
    (boundView tbEnv mapBA).ToolbarMap = (boundView tbEnv mapBA).Map ∧
    (boundView tbEnv mapBA).toolbar = some ["Add", "Sort", "Custom"] ∧
    (boundView tbEnv mapBA).toolBarViewCalls = 1 ∧
    (boundView tbEnv mapBA).toolbarDeletes = 0 ∧
    (ConfigToolbar tbEnv (boundView tbEnv mapBA)).map
        (fun s => (s.toolbar, s.toolBarViewCalls, s.toolbarDeletes))
      = some (some ["Add", "Sort", "Custom"], 2, 1) := by
  decide

/-- C9 (counterexample): `MapChangeValueType` faults on the view of the empty map at
index 0, and on the view of `{"x": 5}` at index -1. -/
theorem C9_MapChangeValueType_faults_out_of_range :
    (builtView stdEnv mapEmpty false).Map = some mapEmpty ∧
    MapChangeValueType stdEnv 0 GoType.string (builtView stdEnv mapEmpty false) = none ∧
    (builtView stdEnv mapX5 false).Map = some mapX5 ∧
    MapChangeValueType stdEnv (-1) GoType.string (builtView stdEnv mapX5 false) = none := by
  decide

/-- C9 (amended): on a bound map `MapChangeValueType(idx, typ)` completes exactly when
`0 <= idx`, `idx < len(Keys)` and `idx < len(Values)`; for every other index it faults on
`Keys[idx]` or `Values[idx]`. -/
theorem C9_MapChangeValueType_completes_iff (env : Env) (idx : Int) (typ : GoType)
    (mv : MapView) (mp : GoMap) (hm : mv.Map = some mp) :
    (∃ mv', MapChangeValueType env idx typ mv = some mv') ↔
      (0 ≤ idx ∧ idx < (mv.Keys.length : Int) ∧ idx < (mv.Values.length : Int)) := by
  rw [← Option.isSome_iff_exists]
  exact MapChangeValueType_isSome env idx typ mv mp hm

/-- C9 (witness): the amended claim at the view of `{"x": 5}` and index 0. -/
theorem C9_MapChangeValueType_completes_iff_witness :
    (∃ mv', MapChangeValueType stdEnv 0 GoType.string (builtView stdEnv mapX5 false)
        = some mv') ↔
      ((0 : Int) ≤ 0 ∧ (0 : Int) < ((builtView stdEnv mapX5 false).Keys.length : Int) ∧
        (0 : Int) < ((builtView stdEnv mapX5 false).Values.length : Int)) :=
  C9_MapChangeValueType_completes_iff stdEnv 0 GoType.string (builtView stdEnv mapX5 false)
    mapX5 (by decide)

/-- C10: every operation returns unless it is in one of its two fault states
(`MapChangeValueType` with an index out of range, `ConfigToolbar` without a toolbar child);
in the state it returns `Changed` is true if it was true before, and it is true after
`SetChanged` and after `MapAdd`, `MapDelete` and `MapChangeValueType` on a bound map. -/
theorem C10_Changed_monotone (env : Env) (op : Op) (s : MapView) :
    (op.faults s = false → (op.run env s).isSome = true) ∧
    ∀ s', op.run env s = some s' →
      (s.Changed = true → s'.Changed = true) ∧
      (op.marksChanged s = true → s'.Changed = true) := by
  cases op with
  | SetMap mp tmpSave =>
    obtain ⟨m, hm, hc⟩ := UpdateFromMap_spec env { s with Map := mp, TmpSave := tmpSave }
    have hrun : (Op.SetMap mp tmpSave).run env s = some m := hm
    refine ⟨fun _ => by rw [hrun]; rfl, ?_⟩
    intro s' hs'
    rw [hrun] at hs'
    cases hs'
    exact ⟨fun h => by rw [hc]; exact h, fun h => by cases h⟩
  | UpdateFromMap =>
    obtain ⟨m, hm, hc⟩ := UpdateFromMap_spec env s
    have hrun : Op.UpdateFromMap.run env s = some m := hm
    refine ⟨fun _ => by rw [hrun]; rfl, ?_⟩
    intro s' hs'
    rw [hrun] at hs'
    cases hs'
    exact ⟨fun h => by rw [hc]; exact h, fun h => by cases h⟩
  | UpdateValues =>
    obtain ⟨m, hm, _, hc, _⟩ := ConfigMapGrid_frame env s
    have hrun : Op.UpdateValues.run env s = some m := hm
    refine ⟨fun _ => by rw [hrun]; rfl, ?_⟩
    intro s' hs'
    rw [hrun] at hs'
    cases hs'
    exact ⟨fun h => by rw [hc]; exact h, fun h => by cases h⟩
  | ConfigMapGrid =>
    obtain ⟨m, hm, _, hc, _⟩ := ConfigMapGrid_frame env s
    have hrun : Op.ConfigMapGrid.run env s = some m := hm
    refine ⟨fun _ => by rw [hrun]; rfl, ?_⟩
    intro s' hs'
    rw [hrun] at hs'
    cases hs'
    exact ⟨fun h => by rw [hc]; exact h, fun h => by cases h⟩
  | ConfigToolbar =>
    refine ⟨fun hf => ConfigToolbar_isSome env s hf, ?_⟩
    intro s' hs'
    have hc := ConfigToolbar_changed env s s' hs'
    exact ⟨fun h => by rw [hc]; exact h, fun h => by cases h⟩
  | SetChanged =>
    refine ⟨fun _ => rfl, ?_⟩
    intro s' hs'
    have : s' = Giv.SetChanged s := (Option.some.inj hs').symm
    subst this
    exact ⟨fun _ => rfl, fun _ => rfl⟩
  | MapAdd =>
    cases hm : s.Map with
    | none =>
      have hrun : Op.MapAdd.run env s = some s := by
        show Giv.MapAdd env s = some s
        unfold Giv.MapAdd; rw [hm]
      refine ⟨fun _ => by rw [hrun]; rfl, ?_⟩
      intro s' hs'
      rw [hrun] at hs'
      cases hs'
      exact ⟨fun h => h, fun h => by simp [Op.marksChanged, hm] at h⟩
    | some mp =>
      obtain ⟨m, h, _, hCh, _⟩ := rebuild_then_SetChanged env { s with Map := some (env.MapAdd mp) }
      have hrun : Op.MapAdd.run env s = some m := by
        show Giv.MapAdd env s = some m
        unfold Giv.MapAdd; rw [hm]; exact h
      refine ⟨fun _ => by rw [hrun]; rfl, ?_⟩
      intro s' hs'
      rw [hrun] at hs'
      cases hs'
      exact ⟨fun _ => hCh, fun _ => hCh⟩
  | MapDelete key =>
    cases hm : s.Map with
    | none =>
      have hrun : (Op.MapDelete key).run env s = some s := by
        show Giv.MapDelete env key s = some s
        unfold Giv.MapDelete; rw [hm]
      refine ⟨fun _ => by rw [hrun]; rfl, ?_⟩
      intro s' hs'
      rw [hrun] at hs'
      cases hs'
      exact ⟨fun h => h, fun h => by simp [Op.marksChanged, hm] at h⟩
    | some mp =>
      obtain ⟨m, h, _, hCh, _⟩ :=
        rebuild_then_SetChanged env { s with Map := some (mp.MapDeleteValue key) }
      have hrun : (Op.MapDelete key).run env s = some m := by
        show Giv.MapDelete env key s = some m
        unfold Giv.MapDelete; rw [hm]; exact h
      refine ⟨fun _ => by rw [hrun]; rfl, ?_⟩
      intro s' hs'
      rw [hrun] at hs'
      cases hs'
      exact ⟨fun _ => hCh, fun _ => hCh⟩
  | MapChangeValueType idx typ =>
    cases hm : s.Map with
    | none =>
      have hrun : (Op.MapChangeValueType idx typ).run env s = some s := by
        show Giv.MapChangeValueType env idx typ s = some s
        unfold Giv.MapChangeValueType; rw [hm]
      refine ⟨fun _ => by rw [hrun]; rfl, ?_⟩
      intro s' hs'
      rw [hrun] at hs'
      cases hs'
      exact ⟨fun h => h, fun h => by simp [Op.marksChanged, hm] at h⟩
    | some mp =>
      refine ⟨?_, ?_⟩
      · intro hf
        show (Giv.MapChangeValueType env idx typ s).isSome = true
        rw [MapChangeValueType_isSome env idx typ s mp hm]
        simp only [Op.faults, hm, Option.isSome_some, Bool.true_and, Bool.or_eq_false_iff,
          decide_eq_false_iff_not] at hf
        omega
      · intro s' hs'
        have hc := MapChangeValueType_changed env idx typ s s' mp hm hs'
        exact ⟨fun _ => hc, fun _ => hc⟩
  | ToggleSort =>
    obtain ⟨m, hm, _, hc, _⟩ := ConfigMapGrid_frame env { s with SortVals := !s.SortVals }
    have hrun : Op.ToggleSort.run env s = some m := hm
    refine ⟨fun _ => by rw [hrun]; rfl, ?_⟩
    intro s' hs'
    rw [hrun] at hs'
    cases hs'
    exact ⟨fun h => by rw [hc]; exact h, fun h => by cases h⟩

/-- C10 (witness): `MapAdd` on the edited view of `{"b": 2, "a": 1}` returns, and the
state it returns has `Changed` true, both as an edit and because it was true before. -/
theorem C10_Changed_monotone_witness :
    (Op.MapAdd.run stdEnv (SetChanged (builtView stdEnv mapBA false))).isSome = true ∧
    (Op.MapAdd.run stdEnv (SetChanged (builtView stdEnv mapBA false))).map MapView.Changed
      = some true ∧
    (Op.MapAdd.run stdEnv (SetChanged (builtView stdEnv mapBA false))).map MapView.Changed
      = some (SetChanged (builtView stdEnv mapBA false)).Changed := by
  have h := C10_Changed_monotone stdEnv Op.MapAdd (SetChanged (builtView stdEnv mapBA false))
  have h1 := h.1 (by decide)
  obtain ⟨s', hs'⟩ := Option.isSome_iff_exists.mp h1
  have h2 := h.2 s' hs'
  refine ⟨h1, ?_, ?_⟩
  · rw [hs']
    exact congrArg some (h2.2 (by decide))
  · rw [hs']
    exact congrArg some (h2.1 (by decide))

/-- C6 (counterexample): `{"a": 1, "b": 1}` enumerated as a, b and as b, a are two
enumerations of one map; sorted by value, where both entries have the text "1", the
rebuilt `Keys` are a, b for the first and b, a for the second. -/
theorem C6_ties_follow_enumeration_order :
    mapTieAB.entries.Perm mapTieBA.entries ∧
    (ConfigMapGrid stdEnv (viewOn mapTieAB true)).map (fun s => s.Keys.map ValueView.Value)
      = some [GoVal.str "a", GoVal.str "b"] ∧
    (ConfigMapGrid stdEnv (viewOn mapTieBA true)).map (fun s => s.Keys.map ValueView.Value)
      = some [GoVal.str "b", GoVal.str "a"] ∧
    (ConfigMapGrid stdEnv (viewOn mapTieAB true)).map MapView.mapGrid
      ≠ (ConfigMapGrid stdEnv (viewOn mapTieBA true)).map MapView.mapGrid := by
  decide

/-- C6 (amended): when no two entries of the map have the same sort text (the text that
the comparison of the sort looks at), a second `ConfigMapGrid` with no mutation in
between, for whatever order the keys are enumerated in each time, returns the same child
list and the same `Keys` and `Values` in the same order as the first. -/
theorem C6_rebuild_independent_of_enumeration (env : Env) (mv : MapView) (mp₁ mp₂ : GoMap)
    (he : mp₂.elemType = mp₁.elemType) (hperm : mp₁.entries.Perm mp₂.entries)
    (hdistinct : (mp₁.MapKeys.map (sortText env mp₁ mv.SortVals)).Nodup) :
    ∃ r₁ r₂, ConfigMapGrid env { mv with Map := some mp₁ } = some r₁ ∧
      ConfigMapGrid env { r₁ with Map := some mp₂ } = some r₂ ∧
      r₂.Keys = r₁.Keys ∧ r₂.Values = r₁.Values ∧ r₂.mapGrid = r₁.mapGrid := by
  rcases Option.eq_none_or_eq_some mv.mapGrid with hg | ⟨g, hg⟩
  · have h1 := ConfigMapGrid_nogrid env { mv with Map := some mp₁ } hg
    exact ⟨_, _, h1, ConfigMapGrid_nogrid env _ hg, rfl, rfl, rfl⟩
  · have h1 := ConfigMapGrid_bound env { mv with Map := some mp₁ } mp₁ g rfl hg
    refine ⟨_, _, h1, ConfigMapGrid_bound env _ mp₂ _ rfl rfl, ?_, ?_, ?_⟩
    · show (buildGrid env mp₂ mv.SortVals).Keys = (buildGrid env mp₁ mv.SortVals).Keys
      rw [buildGrid_perm env mp₁ mp₂ mv.SortVals he hperm hdistinct]
    · show (buildGrid env mp₂ mv.SortVals).Values = (buildGrid env mp₁ mv.SortVals).Values
      rw [buildGrid_perm env mp₁ mp₂ mv.SortVals he hperm hdistinct]
    · show some ({ columns := ncolOf mp₂, Kids := (buildGrid env mp₂ mv.SortVals).config } : Frame)
        = some { columns := ncolOf mp₁, Kids := (buildGrid env mp₁ mv.SortVals).config }
      rw [buildGrid_perm env mp₁ mp₂ mv.SortVals he hperm hdistinct]
      simp only [ncolOf, he]

/-- C6 (witness): `{"b": 2, "a": 1}` enumerated as b, a and as a, b, sorted by value. -/
theorem C6_rebuild_independent_of_enumeration_witness :
    ∃ r₁ r₂, ConfigMapGrid stdEnv { viewOn mapBA true with Map := some mapBA } = some r₁ ∧
      ConfigMapGrid stdEnv { r₁ with Map := some { mapBA with entries := mapBA.entries.reverse } }
        = some r₂ ∧
      r₂.Keys = r₁.Keys ∧ r₂.Values = r₁.Values ∧ r₂.mapGrid = r₁.mapGrid :=
  C6_rebuild_independent_of_enumeration stdEnv (viewOn mapBA true) mapBA
    { mapBA with entries := mapBA.entries.reverse } rfl (by decide) (by decide)

end Giv
